import Mathlib

/-!
# Verification of `script.py` (wynn-guild-reporter)

Shallow embedding of the guild-activity report script.  The script is a
linear batch job: fetch the guild roster, fetch the profile of each member with
bounded retry, merge into report rows, sort by inactivity (descending),
render a fixed-width table, and optionally upload it to a webhook.

Modelling conventions:
* machine integers are `Int`/`Nat`; the Python `//` and `%` (floor semantics
  for positive divisors) are `Int.fdiv`/`Int.emod`; the Python `int()`
  truncation toward zero is `Int.tdiv`;
* `float("inf")` inactivity sentinels are modelled with `WithTop Int`;
* JSON "absent field" is `Option`; Python dict rows with possibly-absent
  keys (the error placeholder lacks `inactivity_seconds`) use `Option`
  fields;
* raising / returning is `PyResult`; the network is an oracle parameter;
* timestamps are microseconds since the epoch (Python `datetime` stores
  days/seconds/microseconds exactly, so integer microseconds are lossless).
-/

/-- Result of a Python call: normal return or a raised exception
(carrying the stringified exception message). -/
inductive PyResult (α : Type) where
  | ok (val : α)
  | raised (msg : String)
deriving DecidableEq

/-- `str.replace(pat, rep)` worker over character lists: leftmost,
non-overlapping replacement of every occurrence, fuelled by the input
length (each step consumes at least one character). -/
def pyReplaceAux (pat rep : List Char) : Nat → List Char → List Char
  | _, [] => []
  | 0, cs => cs
  | fuel + 1, c :: cs =>
    if pat ≠ [] ∧ (c :: cs).take pat.length = pat then
      rep ++ pyReplaceAux pat rep fuel ((c :: cs).drop pat.length)
    else
      c :: pyReplaceAux pat rep fuel cs

/-- Python `s.replace(pat, rep)` for a non-empty pattern. -/
def pyReplace (s pat rep : String) : String :=
  String.mk (pyReplaceAux pat.toList rep.toList s.toList.length s.toList)

/-- A run of `n` spaces. -/
def spaces (n : Nat) : String :=
  String.mk (List.replicate n ' ')

/-- Python format `f"{s:<w}"`: left-aligned, padded with spaces on the
right up to a minimum width `w`; strings longer than `w` are kept whole
(no truncation). -/
def padRightTo (w : Nat) (s : String) : String :=
  s ++ spaces (w - s.length)

/-- Python format `f"{s:>w}"`: right-aligned, padded with spaces on the
left up to a minimum width `w`; no truncation. -/
def padLeftTo (w : Nat) (s : String) : String :=
  spaces (w - s.length) ++ s

/-- Round `(num * 10) / den` to the nearest integer, ties to even (the
rounding used by Python float formatting), computed with integer
arithmetic on the numerator and (positive) denominator. -/
def roundHalfEvenScaled (num : Int) (den : Nat) : Int :=
  let n := num * 10
  let f := Int.fdiv n den
  let r := Int.emod n den
  if 2 * r < (den : Int) then f
  else if (den : Int) < 2 * r then f + 1
  else if Int.emod f 2 = 0 then f else f + 1

/-- Python format `f"{x:.1f}"` on an exact rational value: one decimal
digit, round-half-even, with a sign for negative values.  (Python formats
the binary double; on values that are exact in one decimal digit, such as
every value the report prints, the two agree.) -/
def formatFix1 (q : Rat) : String :=
  let t : Int := roundHalfEvenScaled q.num q.den
  let sign : String := if t < 0 ∨ (t = 0 ∧ q.num < 0) then "-" else ""
  sign ++ toString (t.natAbs / 10) ++ "." ++ toString (t.natAbs % 10)

/-! ## Model of `datetime.fromisoformat`

The script parses `lastJoin.replace("Z", "+00:00")` with
`datetime.fromisoformat`.  We model the documented CPython (pre-3.11)
grammar `YYYY-MM-DD[*HH[:MM[:SS[.fff[fff]]]]][±HH:MM[:SS[.ffffff]]]`
with the field validation of the constructor.  A parsed value is the naive
wall-clock instant in microseconds since 1970-01-01T00:00:00 plus an
optional UTC offset in microseconds. -/

/-- A parsed Python `datetime`: naive wall-clock microseconds since the
epoch, and the UTC offset in microseconds when the value is aware. -/
structure PyDateTime where
  naiveMicro : Int
  offset : Option Int
deriving DecidableEq

/-- Read exactly `n` decimal digits from the front of a character list,
accumulating their value. -/
def readDigitsAux : Nat → Nat → List Char → Option (Nat × List Char)
  | 0, acc, cs => some (acc, cs)
  | _ + 1, _, [] => none
  | n + 1, acc, c :: cs =>
    if c.isDigit then readDigitsAux n (acc * 10 + (c.toNat - 48)) cs else none

/-- Read exactly `n` decimal digits. -/
def readDigits (n : Nat) (cs : List Char) : Option (Nat × List Char) :=
  readDigitsAux n 0 cs

/-- Parse the leading `YYYY-MM-DD`, returning the remaining characters. -/
def parseDate (cs : List Char) : Option (Nat × Nat × Nat × List Char) :=
  match readDigits 4 cs with
  | some (y, '-' :: cs1) =>
    match readDigits 2 cs1 with
    | some (mo, '-' :: cs2) =>
      match readDigits 2 cs2 with
      | some (d, rest) => some (y, mo, d, rest)
      | none => none
    | _ => none
  | _ => none

/-- Parse `HH[:MM[:SS[.fff[fff]]]]` (the CPython `_parse_hh_mm_ss_ff`
grammar): hours, minutes, seconds and microseconds, where the fraction
must have exactly 3 or 6 digits. -/
def parseHMSF (cs : List Char) : Option (Nat × Nat × Nat × Nat) :=
  match readDigits 2 cs with
  | some (h, []) => some (h, 0, 0, 0)
  | some (h, ':' :: cs1) =>
    match readDigits 2 cs1 with
    | some (m, []) => some (h, m, 0, 0)
    | some (m, ':' :: cs2) =>
      match readDigits 2 cs2 with
      | some (s, []) => some (h, m, s, 0)
      | some (s, '.' :: cs3) =>
        if cs3.length = 3 then
          match readDigits 3 cs3 with
          | some (f, []) => some (h, m, s, f * 1000)
          | _ => none
        else if cs3.length = 6 then
          match readDigits 6 cs3 with
          | some (f, []) => some (h, m, s, f)
          | _ => none
        else none
      | _ => none
    | _ => none
  | _ => none

/-- Parse the time-of-day part, with an optional `±HH:MM[:SS[.ffffff]]`
UTC offset (split at the first `-`, else the first `+`, as CPython does);
the offset magnitude must be strictly less than 24 hours. -/
def parseTime (tstr : List Char) : Option ((Nat × Nat × Nat × Nat) × Option Int) :=
  if tstr.length < 2 then none
  else
    let tzpos : Option Nat :=
      match tstr.findIdx? (fun c => c = '-') with
      | some i => some i
      | none => tstr.findIdx? (fun c => c = '+')
    match tzpos with
    | none =>
      match parseHMSF tstr with
      | some comps => some (comps, none)
      | none => none
    | some i =>
      let timestr := tstr.take i
      let tzstr := tstr.drop (i + 1)
      let sign : Int := if tstr.getD i ' ' = '-' then -1 else 1
      if tzstr.length = 5 ∨ tzstr.length = 8 ∨ tzstr.length = 15 then
        match parseHMSF timestr, parseHMSF tzstr with
        | some comps, some (th, tm, ts, tf) =>
          let mag : Nat := (th * 3600 + tm * 60 + ts) * 1000000 + tf
          if mag < 86400000000 then some (comps, some (sign * (mag : Int)))
          else none
        | _, _ => none
      else none

/-- Gregorian leap year. -/
def isLeap (y : Nat) : Bool :=
  y % 4 = 0 ∧ (y % 100 ≠ 0 ∨ y % 400 = 0)

/-- Days in a month of the proleptic Gregorian calendar. -/
def daysInMonth (y m : Nat) : Nat :=
  if m = 1 ∨ m = 3 ∨ m = 5 ∨ m = 7 ∨ m = 8 ∨ m = 10 ∨ m = 12 then 31
  else if m = 2 then (if isLeap y then 29 else 28)
  else 30

/-- Days from 1970-01-01 to the civil date `y-m-d` (standard
civil-calendar conversion, valid for `y ≥ 1`). -/
def daysFromCivil (y m d : Nat) : Int :=
  let y1 := if m ≤ 2 then y - 1 else y
  let era := y1 / 400
  let yoe := y1 % 400
  let mp := if m ≤ 2 then m + 9 else m - 3
  let doy := (153 * mp + 2) / 5 + (d - 1)
  let doe := yoe * 365 + yoe / 4 - yoe / 100 + doy
  (era * 146097 + doe : Nat) - (719468 : Int)

/-- Model of `datetime.fromisoformat`: parse and validate, producing the
naive wall-clock microseconds since the epoch and the optional UTC
offset.  The character at index 10 (the date/time separator) is ignored,
as in CPython; a string of exactly 11 characters parses as midnight. -/
def fromisoformat (s : String) : Option PyDateTime :=
  match parseDate s.toList with
  | none => none
  | some (y, mo, d, rest) =>
    let timeInfo : Option ((Nat × Nat × Nat × Nat) × Option Int) :=
      match rest with
      | [] => some ((0, 0, 0, 0), none)
      | _ :: tcs => if tcs.isEmpty then some ((0, 0, 0, 0), none) else parseTime tcs
    match timeInfo with
    | none => none
    | some ((hh, mi, ss, ff), off) =>
      if 1 ≤ y ∧ y ≤ 9999 ∧ 1 ≤ mo ∧ mo ≤ 12 ∧ 1 ≤ d ∧ d ≤ daysInMonth y mo ∧
          hh ≤ 23 ∧ mi ≤ 59 ∧ ss ≤ 59 then
        some ⟨daysFromCivil y mo d * 86400000000 +
                (((hh * 3600 + mi * 60 + ss) * 1000000 + ff : Nat) : Int), off⟩
      else none

/-! ## Configuration constants (`script.py` lines 19-23) -/

/-- `MAX_RETRIES = 5`. -/
def MAX_RETRIES : Nat := 5

/-- `RETRY_DELAY = 5` (seconds slept before each retry). -/
def RETRY_DELAY : Nat := 5

/-! ## `safe_request` (`script.py` lines 28-41)

The network is an oracle mapping the attempt number to what
`requests.get` produced on that attempt: either a raised
`requests.RequestException` or an HTTP response with a status code.
`resp.raise_for_status()` raises exactly for status codes in
`[400, 600)`; the raise is caught by the `except` clause, which sleeps
and retries.  A 429 response sleeps and retries via `continue`. -/

/-- What one `requests.get` call produced: a raised `RequestException`
(network error / timeout) or a response with an HTTP status code. -/
inductive AttemptOutcome where
  | exc
  | status (code : Nat)
deriving DecidableEq

/-- Observable behaviour of one `safe_request` call: the returned status
code or raised exception message, the number of `requests.get` calls
made, and the list of sleep durations performed. -/
structure SafeReqTrace where
  result : PyResult Nat
  attempts : Nat
  sleeps : List Nat
deriving DecidableEq

/-- `resp.raise_for_status()` raises exactly for 4xx and 5xx codes. -/
def raisesForStatus (c : Nat) : Bool :=
  400 ≤ c && c < 600

/-- The retry loop of `safe_request`, over the list of remaining attempt
numbers (`range(1, MAX_RETRIES + 1)`). -/
def safe_request_aux (o : Nat → AttemptOutcome) (url : String) :
    List Nat → SafeReqTrace
  | [] =>
    ⟨.raised ("Failed to fetch after " ++ toString MAX_RETRIES ++ " attempts: " ++ url),
      0, []⟩
  | a :: rest =>
    match o a with
    | .exc =>
      let t := safe_request_aux o url rest
      ⟨t.result, t.attempts + 1, RETRY_DELAY :: t.sleeps⟩
    | .status c =>
      if c = 429 then
        let t := safe_request_aux o url rest
        ⟨t.result, t.attempts + 1, RETRY_DELAY :: t.sleeps⟩
      else if raisesForStatus c then
        let t := safe_request_aux o url rest
        ⟨t.result, t.attempts + 1, RETRY_DELAY :: t.sleeps⟩
      else
        ⟨.ok c, 1, []⟩

/-- `safe_request(url)`: up to `MAX_RETRIES` attempts. -/
def safe_request (o : Nat → AttemptOutcome) (url : String) : SafeReqTrace :=
  safe_request_aux o url (List.range' 1 MAX_RETRIES)

/-- An attempt outcome that does not end the loop with a return: a raised
request exception, a 429, or a status that `raise_for_status` rejects. -/
def attemptFails : AttemptOutcome → Bool
  | .exc => true
  | .status c => c == 429 || raisesForStatus c

/-! ## `fetch_guild_members` (`script.py` lines 45-66) -/

/-- One member entry of the guild document (`members[rank][name]`):
fields the script reads, each possibly absent. -/
structure MemberInfo where
  uuid : Option String
  contributed : Option Int
  joined : Option String
deriving DecidableEq

/-- The guild document: `name`, and `members` as a rank-keyed mapping of
name-keyed member entries, in iteration (insertion) order. -/
structure GuildDoc where
  name : String
  members : List (String × List (String × MemberInfo))
deriving DecidableEq

/-- A roster entry as built by `fetch_guild_members`. -/
structure Member where
  uuid : String
  guild_name : String
  rank : String
  contributed : Int
  joined : String
deriving DecidableEq

/-- `fetch_guild_members` on an already-fetched guild document: skip the
`"total"` rank, skip entries whose `uuid` is absent or empty (Python
`if not uuid: continue`), default `contributed` to `0` and `joined` to
`"Unknown"`. -/
def fetch_guild_members (data : GuildDoc) : List Member :=
  data.members.foldl
    (fun members p =>
      if p.1 = "total" then members
      else
        p.2.foldl
          (fun members q =>
            match q.2.uuid with
            | none => members
            | some u =>
              if u = "" then members
              else members ++
                [⟨u, q.1, p.1, q.2.contributed.getD 0, q.2.joined.getD "Unknown"⟩])
          members)
    []

/-! ## `fetch_player_info` (`script.py` lines 70-125) -/

/-- The player document fields the script reads, each possibly absent. -/
structure PlayerDoc where
  username : Option String
  playtime : Option Rat
  lastJoin : Option String
deriving DecidableEq

/-- The dict returned by `fetch_player_info`: `inactivity_seconds` is an
integer or `float("inf")`, modelled as `WithTop Int`. -/
structure PlayerInfo where
  current_name : String
  playtime : Rat
  delta_str : String
  last_join_dt : Option Int
  inactivity_seconds : WithTop Int
deriving DecidableEq

/-- `fetch_player_info(uuid)` with the network as an oracle and the
current UTC instant `now` in microseconds since the epoch.  A falsy
(`None` or empty) `lastJoin` yields the "Never joined" record; a parse
failure yields the "Invalid date" record; a naive parsed datetime makes
`now - last_join_dt` raise `TypeError` (uncaught here); otherwise the
elapsed duration is decomposed exactly as the Python `timedelta` is:
`delta.days` is the floored day count and `delta.seconds` the remaining
seconds in `[0, 86400)`, while `int(delta.total_seconds())` truncates
toward zero. -/
def fetch_player_info (now : Int) (playerFetch : String → PyResult PlayerDoc)
    (uuid : String) : PyResult PlayerInfo :=
  match playerFetch uuid with
  | .raised e => .raised e
  | .ok data =>
    let username := data.username.getD uuid
    let playtime := data.playtime.getD 0
    match data.lastJoin with
    | none => .ok ⟨username, playtime, "Never joined", none, ⊤⟩
    | some s =>
      if s = "" then .ok ⟨username, playtime, "Never joined", none, ⊤⟩
      else
        match fromisoformat (pyReplace s "Z" "+00:00") with
        | none => .ok ⟨username, playtime, "Invalid date", none, ⊤⟩
        | some dt =>
          match dt.offset with
          | none =>
            .raised "TypeError: cannot subtract offset-naive and offset-aware datetimes"
          | some off =>
            let lastMicro := dt.naiveMicro - off
            let delta := now - lastMicro
            let inact := Int.tdiv delta 1000000
            let days := Int.fdiv delta 86400000000
            let secs := Int.emod (Int.fdiv delta 1000000) 86400
            let hours := Int.fdiv secs 3600
            let minutes := Int.fdiv (Int.emod secs 3600) 60
            .ok ⟨username, playtime,
              toString days ++ "d " ++ toString hours ++ "h " ++
                toString minutes ++ "m ago",
              some lastMicro, (inact : WithTop Int)⟩

/-! ## The per-member loop, sort and rendering (`script.py` lines 147-189) -/

/-- A merged results dict.  Success rows carry every key; the error
placeholder (lines 160-167) lacks `contributed`, `joined`,
`last_join_dt` and, crucially, `inactivity_seconds`, hence those fields
are `Option`s. -/
structure ReportRow where
  uuid : String
  guild_name : String
  current_name : String
  rank : String
  playtime : Rat
  delta_str : String
  contributed : Option Int
  joined : Option String
  last_join_dt : Option (Option Int)
  inactivity_seconds : Option (WithTop Int)
deriving DecidableEq

/-- `{**m, **info}`: the merge of a member with its fetched info. -/
def mergeRow (m : Member) (info : PlayerInfo) : ReportRow :=
  { uuid := m.uuid
    guild_name := m.guild_name
    current_name := info.current_name
    rank := m.rank
    playtime := info.playtime
    delta_str := info.delta_str
    contributed := some m.contributed
    joined := some m.joined
    last_join_dt := some info.last_join_dt
    inactivity_seconds := some info.inactivity_seconds }

/-- The error placeholder appended when `fetch_player_info` raises. -/
def errorRow (m : Member) (e : String) : ReportRow :=
  { uuid := m.uuid
    guild_name := m.guild_name
    current_name := "Error"
    rank := m.rank
    playtime := 0
    delta_str := "Error: " ++ e
    contributed := none
    joined := none
    last_join_dt := none
    inactivity_seconds := none }

/-- The row the loop body produces for one member. -/
def rowFor (now : Int) (playerFetch : String → PyResult PlayerDoc)
    (m : Member) : ReportRow :=
  match fetch_player_info now playerFetch m.uuid with
  | .ok info => mergeRow m info
  | .raised e => errorRow m e

/-- The per-member loop (lines 151-168): accumulate one row per member,
appending in input order. -/
def buildRows (now : Int) (playerFetch : String → PyResult PlayerDoc)
    (members : List Member) : List ReportRow :=
  members.foldl
    (fun results m =>
      match fetch_player_info now playerFetch m.uuid with
      | .ok info => results ++ [mergeRow m info]
      | .raised e => results ++ [errorRow m e])
    []

/-- The sort key of line 172: `x.get("inactivity_seconds", 0)`. -/
def sortKey (r : ReportRow) : WithTop Int :=
  r.inactivity_seconds.getD 0

/-- Stable insertion for a descending sort: `x` is placed before the
first element whose key is at most `key x`, so that among equal keys the
earlier input element stays first. -/
def pyInsert {α : Type} (key : α → WithTop Int) (x : α) : List α → List α
  | [] => [x]
  | y :: ys =>
    if key y ≤ key x then x :: y :: ys else y :: pyInsert key x ys

/-- Model of `list.sort(key=..., reverse=True)`: a stable sort into
non-increasing key order (the CPython sort is stable, and `reverse=True`
preserves the relative order of equal-key elements). -/
def pySortDesc {α : Type} (key : α → WithTop Int) : List α → List α
  | [] => []
  | x :: xs => pyInsert key x (pySortDesc key xs)

/-- One table line (line 184):
`f"{guild_name:<20} | {current_name:<20} | {rank:<10} | {playtime:>6.1f}h | {delta_str}\n"`. -/
def renderRow (r : ReportRow) : String :=
  padRightTo 20 r.guild_name ++ " | " ++ padRightTo 20 r.current_name ++ " | " ++
    padRightTo 10 r.rank ++ " | " ++ padLeftTo 6 (formatFix1 r.playtime) ++ "h | " ++
    r.delta_str ++ "\n"

/-- The full report file body (lines 177-184), given the guild tag and
the formatted generation time. -/
def renderReport (guildTag genTime : String) (rows : List ReportRow) : String :=
  "Guild: " ++ guildTag ++ "\n" ++
    "Generated at: " ++ genTime ++ "\n" ++
    String.mk (List.replicate 70 '=') ++ "\n\n" ++
    padRightTo 20 "Old Name" ++ " | " ++ padRightTo 20 "New Name" ++ " | " ++
    padRightTo 10 "Rank" ++ " | " ++ padLeftTo 8 "Playtime" ++ " | Last Join\n" ++
    String.mk (List.replicate 70 '-') ++ "\n" ++
    String.join (rows.map renderRow)

/-! ## The whole run (`script.py` lines 9-14, 130-143, 147-193) -/

/-- The two environment variables the script reads at startup. -/
structure Env where
  guildTag : Option String
  webhookUrl : Option String
deriving DecidableEq

/-- Observable outcome of a run: the process exit code, the report file
content if one was written, and how many webhook uploads were attempted. -/
structure RunResult where
  exitCode : Nat
  reportFile : Option String
  webhookAttempts : Nat
deriving DecidableEq

/-- `send_webhook_file`: skips when the configured URL is falsy (empty
string); otherwise makes exactly one upload attempt, catching any
delivery failure.  Returns the number of upload attempts. -/
def send_webhook_file (webhookUrl : String) : Nat :=
  if webhookUrl = "" then 0 else 1

/-- The whole process: config loading (missing `GUILD_PREFIX` or
`WEBHOOK_URL` exits with status 1 before any network activity), the
roster fetch (an uncaught fetch failure terminates the process with a
traceback, exit status 1, before the report file is written), the
per-member loop, the sort, the report write, and the webhook send.
A completed `main()` exits with status 0. -/
def runProgram (env : Env) (guildFetch : PyResult GuildDoc)
    (playerFetch : String → PyResult PlayerDoc) (now : Int)
    (genTime : String) : RunResult :=
  match env.guildTag, env.webhookUrl with
  | some gp, some wu =>
    (match guildFetch with
     | .raised _ => ⟨1, none, 0⟩
     | .ok gdoc =>
       let members := fetch_guild_members gdoc
       let rows := buildRows now playerFetch members
       let sorted := pySortDesc sortKey rows
       ⟨0, some (renderReport gp genTime sorted), send_webhook_file wu⟩)
  | _, _ => ⟨1, none, 0⟩

/-! ## Declarative characterizations used by the theorems -/

/-- Declarative form of one roster-entry decision of
`fetch_guild_members`: `none` when the player identifier is absent or
empty, otherwise the produced `Member` with its defaults. -/
def rosterEntry (rank : String) (q : String × MemberInfo) : Option Member :=
  match q.2.uuid with
  | none => none
  | some u =>
    if u = "" then none
    else some ⟨u, q.1, rank, q.2.contributed.getD 0, q.2.joined.getD "Unknown"⟩

/-! ## Concrete inputs used by counterexamples and witnesses -/

/-- C1 failing input: a member whose profile fetch exhausts retries. -/
def c1memA : Member := ⟨"u1", "Alice", "recruit", 0, "Unknown"⟩

/-- C1 failing input: a member with a finite (100 s) inactivity. -/
def c1memB : Member := ⟨"u2", "Bob", "recruit", 0, "Unknown"⟩

/-- C1 network oracle: `u1` fails, `u2` last joined at the epoch. -/
def c1pf : String → PyResult PlayerDoc := fun u =>
  if u = "u1" then .raised "Failed to fetch after 5 attempts: u1"
  else .ok ⟨some "Bobby", some 0, some "1970-01-01T00:00:00Z"⟩

/-- C2 counterexample guild document. -/
def c2doc : GuildDoc := ⟨"G", []⟩

/-- C2 counterexample player oracle. -/
def c2pf : String → PyResult PlayerDoc := fun _ => .raised "unreachable"


/-- C3 witness oracle: every profile fetch raises. -/
def c3pf : String → PyResult PlayerDoc := fun _ => .raised "boom"

/-- C3 witness member. -/
def c3m : Member := ⟨"w3", "Will", "chief", 7, "2020"⟩

/-- C4 witness oracle: every attempt is rate-limited (HTTP 429). -/
def c4o : Nat → AttemptOutcome := fun _ => .status 429

/-- C5 counterexample row: a 21-character guild name (and default-shaped
remaining fields). -/
def c5rowLong : ReportRow :=
  ⟨"u", "ABCDEFGHIJKLMNOPQRSTU", "Neo", "recruit", 0, "Never joined",
    none, none, none, some ⊤⟩

/-- C5 witness row: all columns within their minimum widths. -/
def c5rowShort : ReportRow :=
  ⟨"u", "Old", "New", "chief", ⟨25, 2, by decide, by decide⟩, "3d 2h 1m ago",
    some 1, some "2020", some (some 0), some 100⟩

/-- C6 counterexample player document: `lastJoin` present but empty. -/
def c6doc : PlayerDoc := ⟨some "u6", some 0, some ""⟩

/-- C9 witness guild document: a `"total"` rank, an entry without a
uuid, an entry with an empty uuid, and two resolvable members with and
without the optional fields. -/
def c9doc : GuildDoc :=
  ⟨"G",
    [("owner", [("Alice", ⟨some "a-1", none, none⟩)]),
     ("total", [("Bob", ⟨some "b-2", some 5, some "2020"⟩)]),
     ("recruit",
      [("Carl", ⟨none, some 1, none⟩),
       ("Dana", ⟨some "", none, none⟩),
       ("Eve", ⟨some "e-9", some 3, some "2021-01-01"⟩)])]⟩

/-- C10 counterexample oracle: the first attempt returns HTTP 304. -/
def c10o : Nat → AttemptOutcome := fun _ => .status 304

/-- C10 witness oracle: the first attempt returns HTTP 200. -/
def c10ok : Nat → AttemptOutcome := fun _ => .status 200

/-! ## Helper lemmas -/

/-- `pyInsert` permutes `x :: l`. -/
theorem pyInsert_perm {α : Type} (key : α → WithTop Int) (x : α) :
    ∀ l : List α, (pyInsert key x l).Perm (x :: l) := by
  intro l
  induction l with
  | nil => simp [pyInsert]
  | cons y ys ih =>
    by_cases h : key y ≤ key x
    · simp [pyInsert, h]
    · simp only [pyInsert, if_neg h]
      exact (ih.cons y).trans (List.Perm.swap x y ys)

/-- `pySortDesc` permutes its input. -/
theorem pySortDesc_perm {α : Type} (key : α → WithTop Int) :
    ∀ l : List α, (pySortDesc key l).Perm l := by
  intro l
  induction l with
  | nil => simp [pySortDesc]
  | cons x xs ih =>
    exact (pyInsert_perm key x (pySortDesc key xs)).trans (ih.cons x)

/-- Inserting into a non-increasing list keeps it non-increasing. -/
theorem pyInsert_pairwise {α : Type} (key : α → WithTop Int) (x : α) :
    ∀ {l : List α}, l.Pairwise (fun a b => key b ≤ key a) →
      (pyInsert key x l).Pairwise (fun a b => key b ≤ key a) := by
  intro l
  induction l with
  | nil => intro _; simp [pyInsert]
  | cons y ys ih =>
    intro hp
    rcases List.pairwise_cons.mp hp with ⟨hy, hys⟩
    by_cases h : key y ≤ key x
    · simp only [pyInsert, if_pos h]
      refine List.pairwise_cons.mpr ⟨?_, hp⟩
      intro z hz
      rcases List.mem_cons.mp hz with rfl | hz'
      · exact h
      · exact le_trans (hy z hz') h
    · simp only [pyInsert, if_neg h]
      refine List.pairwise_cons.mpr ⟨?_, ih hys⟩
      intro z hz
      rcases List.mem_cons.mp ((pyInsert_perm key x ys).mem_iff.mp hz) with rfl | hz'
      · exact le_of_lt (lt_of_not_le h)
      · exact hy z hz'

/-- `pySortDesc` output is non-increasing in the key. -/
theorem pySortDesc_pairwise {α : Type} (key : α → WithTop Int) :
    ∀ l : List α, (pySortDesc key l).Pairwise (fun a b => key b ≤ key a) := by
  intro l
  induction l with
  | nil => simp [pySortDesc]
  | cons x xs ih => exact pyInsert_pairwise key x ih

/-- Stability of `pyInsert` on the fibre of a key value: inserting an
element whose key is `c` prepends it to the fibre, and inserting any
other element leaves the fibre unchanged. -/
theorem pyInsert_filter {α : Type} (key : α → WithTop Int) (x : α) (c : WithTop Int) :
    ∀ l : List α,
      (pyInsert key x l).filter (fun z => decide (key z = c)) =
        (if key x = c then [x] else []) ++ l.filter (fun z => decide (key z = c)) := by
  intro l
  induction l with
  | nil =>
    by_cases hx : key x = c <;> simp [pyInsert, List.filter, hx]
  | cons y ys ih =>
    by_cases h : key y ≤ key x
    · simp only [pyInsert, if_pos h]
      by_cases hx : key x = c <;> simp [List.filter_cons, hx]
    · simp only [pyInsert, if_neg h]
      by_cases hx : key x = c
      · have hy : ¬ key y = c := fun hyc => h (le_of_eq (hyc.trans hx.symm))
        simp [List.filter_cons, hy, hx, ih]
      · by_cases hy : key y = c <;> simp [List.filter_cons, hy, hx, ih]

/-- Stability of `pySortDesc`: each key fibre of the output equals the
key fibre of the input, i.e. equal-key elements keep their input order. -/
theorem pySortDesc_filter {α : Type} (key : α → WithTop Int) (c : WithTop Int) :
    ∀ l : List α,
      (pySortDesc key l).filter (fun z => decide (key z = c)) =
        l.filter (fun z => decide (key z = c)) := by
  intro l
  induction l with
  | nil => simp [pySortDesc]
  | cons x xs ih =>
    by_cases hx : key x = c <;>
      simp [pySortDesc, pyInsert_filter, List.filter_cons, hx, ih]

/-- The inner roster loop is a `filterMap` of `rosterEntry`. -/
theorem roster_inner_foldl (rank : String) :
    ∀ (players : List (String × MemberInfo)) (acc : List Member),
      players.foldl
        (fun members q =>
          match q.2.uuid with
          | none => members
          | some u =>
            if u = "" then members
            else members ++
              [⟨u, q.1, rank, q.2.contributed.getD 0, q.2.joined.getD "Unknown"⟩])
        acc = acc ++ players.filterMap (rosterEntry rank) := by
  intro players
  induction players with
  | nil => intro acc; simp
  | cons q qs ih =>
    intro acc
    rcases q with ⟨name, info⟩
    rcases hinfo : info.uuid with _ | u
    · simp [List.foldl_cons, hinfo, ih, List.filterMap_cons, rosterEntry]
    · by_cases hu : u = "" <;>
        simp [List.foldl_cons, hinfo, hu, ih, List.filterMap_cons, rosterEntry]

/-- `fetch_guild_members` as a flat map over non-`"total"` ranks. -/
theorem fetch_guild_members_eq (data : GuildDoc) :
    fetch_guild_members data =
      data.members.flatMap
        (fun p =>
          if p.1 = "total" then []
          else p.2.filterMap (rosterEntry p.1)) := by
  have main : ∀ (ranks : List (String × List (String × MemberInfo)))
      (acc : List Member),
      ranks.foldl
        (fun members p =>
          if p.1 = "total" then members
          else
            p.2.foldl
              (fun members q =>
                match q.2.uuid with
                | none => members
                | some u =>
                  if u = "" then members
                  else members ++
                    [⟨u, q.1, p.1, q.2.contributed.getD 0, q.2.joined.getD "Unknown"⟩])
              members)
        acc =
        acc ++ ranks.flatMap
          (fun p => if p.1 = "total" then [] else p.2.filterMap (rosterEntry p.1)) := by
    intro ranks
    induction ranks with
    | nil => intro acc; simp
    | cons p ps ih =>
      intro acc
      by_cases hp : p.1 = "total"
      · simp only [List.foldl_cons, if_pos hp]
        rw [ih]
        simp [hp]
      · simp only [List.foldl_cons, if_neg hp]
        rw [roster_inner_foldl, ih]
        simp [hp, List.append_assoc]
  simpa [fetch_guild_members] using main data.members []

/-- The per-member loop is a `map` of `rowFor`. -/
theorem buildRows_eq_map (now : Int) (playerFetch : String → PyResult PlayerDoc) :
    ∀ members : List Member,
      buildRows now playerFetch members = members.map (rowFor now playerFetch) := by
  have main : ∀ (members : List Member) (acc : List ReportRow),
      members.foldl
        (fun results m =>
          match fetch_player_info now playerFetch m.uuid with
          | .ok info => results ++ [mergeRow m info]
          | .raised e => results ++ [errorRow m e])
        acc = acc ++ members.map (rowFor now playerFetch) := by
    intro members
    induction members with
    | nil => intro acc; simp
    | cons m ms ih =>
      intro acc
      rcases hm : fetch_player_info now playerFetch m.uuid with info | e <;>
        simp [List.foldl_cons, hm, ih, rowFor]
  intro members
  simpa [buildRows] using main members []

/-- The retry loop makes at most one `requests.get` call per remaining
attempt number. -/
theorem safe_request_aux_attempts_le (o : Nat → AttemptOutcome) (url : String) :
    ∀ l : List Nat, (safe_request_aux o url l).attempts ≤ l.length := by
  intro l
  induction l with
  | nil => simp [safe_request_aux]
  | cons a rest ih =>
    rcases ha : o a with _ | c
    · simpa [safe_request_aux, ha] using Nat.succ_le_succ ih
    · by_cases h429 : c = 429
      · simpa [safe_request_aux, ha, h429] using Nat.succ_le_succ ih
      · by_cases hrs : raisesForStatus c
        · simpa [safe_request_aux, ha, h429, hrs] using Nat.succ_le_succ ih
        · simp [safe_request_aux, ha, h429, hrs]

/-- If every remaining attempt fails, the loop consumes them all,
sleeps `RETRY_DELAY` after each, and raises the exhaustion error
carrying the URL. -/
theorem safe_request_aux_all_fail (o : Nat → AttemptOutcome) (url : String) :
    ∀ l : List Nat, (∀ a ∈ l, attemptFails (o a) = true) →
      safe_request_aux o url l =
        ⟨.raised ("Failed to fetch after " ++ toString MAX_RETRIES ++ " attempts: " ++ url),
          l.length, List.replicate l.length RETRY_DELAY⟩ := by
  intro l
  induction l with
  | nil => intro _; simp [safe_request_aux]
  | cons a rest ih =>
    intro hfail
    have ha := hfail a (List.mem_cons_self a rest)
    have hrest := ih (fun b hb => hfail b (List.mem_cons_of_mem a hb))
    rcases ho : o a with _ | c
    · simp [safe_request_aux, ho, hrest, List.replicate_succ]
    · rw [ho] at ha
      by_cases h429 : c = 429
      · simp [safe_request_aux, ho, h429, hrest, List.replicate_succ]
      · have hrs : raisesForStatus c = true := by
          simpa [attemptFails, h429] using ha
        simp [safe_request_aux, ho, h429, hrs, hrest, List.replicate_succ]

/-- A status returned by the retry loop is never one that
`raise_for_status` rejects, and never 429. -/
theorem safe_request_aux_ok (o : Nat → AttemptOutcome) (url : String) :
    ∀ (l : List Nat) (c : Nat), (safe_request_aux o url l).result = .ok c →
      raisesForStatus c = false ∧ c ≠ 429 := by
  intro l
  induction l with
  | nil => intro c hc; simp [safe_request_aux] at hc
  | cons a rest ih =>
    intro c hc
    rcases ho : o a with _ | c'
    · exact ih c (by simpa [safe_request_aux, ho] using hc)
    · by_cases h429 : c' = 429
      · exact ih c (by simpa [safe_request_aux, ho, h429] using hc)
      · by_cases hrs : raisesForStatus c'
        · exact ih c (by simpa [safe_request_aux, ho, h429, hrs] using hc)
        · have : c' = c := by
            simpa [safe_request_aux, ho, h429, hrs] using hc
          subst this
          exact ⟨by simpa using hrs, h429⟩

/-- Composition of the two floor divisions used to turn microseconds
into whole days. -/
theorem fdiv_micro_days (a : Int) :
    Int.fdiv (Int.fdiv a 1000000) 86400 = Int.fdiv a 86400000000 := by
  rw [Int.fdiv_eq_ediv a (by norm_num : (0:Int) ≤ 1000000),
    Int.fdiv_eq_ediv _ (by norm_num : (0:Int) ≤ 86400),
    Int.fdiv_eq_ediv a (by norm_num : (0:Int) ≤ 86400000000)]
  omega

/-! ## Claim theorems -/

/-- C8: after `results.sort(key=lambda x: x.get("inactivity_seconds", 0),
reverse=True)` the row sequence is a permutation of the input, ordered by
non-increasing sort key (descending inactivity duration), and every fibre
of rows with one and the same key keeps its input order: the sort is
stable, so two rows with equal inactivity duration retain their relative
input order. -/
theorem C8_sort_descending_stable (l : List ReportRow) (c : WithTop Int) :
    (pySortDesc sortKey l).Perm l ∧
    (pySortDesc sortKey l).Pairwise (fun a b => sortKey b ≤ sortKey a) ∧
    (pySortDesc sortKey l).filter (fun r => decide (sortKey r = c)) =
      l.filter (fun r => decide (sortKey r = c)) :=
  ⟨pySortDesc_perm sortKey l, pySortDesc_pairwise sortKey l,
    pySortDesc_filter sortKey c l⟩

/-- C9: the roster loader is exactly a flat map that drops the synthetic
`"total"` rank, silently skips entries whose player identifier is absent
or empty, and builds one `Member` per remaining entry with `contributed`
defaulting to `0` and `joined` defaulting to `"Unknown"`; consequently no
produced member carries the `"total"` rank. -/
theorem C9_roster_loader (data : GuildDoc) :
    fetch_guild_members data =
      data.members.flatMap
        (fun p => if p.1 = "total" then [] else p.2.filterMap (rosterEntry p.1)) ∧
    ∀ m ∈ fetch_guild_members data, m.rank ≠ "total" := by
  refine ⟨fetch_guild_members_eq data, ?_⟩
  intro m hm
  rw [fetch_guild_members_eq data] at hm
  rcases List.mem_flatMap.mp hm with ⟨p, hp, hmp⟩
  by_cases hptot : p.1 = "total"
  · simp [hptot] at hmp
  · rw [if_neg hptot] at hmp
    rcases List.mem_filterMap.mp hmp with ⟨q, _, hq2⟩
    rcases hu : q.2.uuid with _ | u
    · simp only [rosterEntry, hu] at hq2
      cases hq2
    · simp only [rosterEntry, hu] at hq2
      by_cases he : u = ""
      · rw [if_pos he] at hq2
        cases hq2
      · rw [if_neg he] at hq2
        injection hq2 with h
        subst h
        exact hptot

/-- C9 witness: on a document with a `"total"` rank, a uuid-less entry,
an empty-uuid entry and two resolvable entries, the loader yields exactly
the two members with the documented defaults, and the rank of a produced
member is not `"total"`. -/
theorem C9_roster_loader_witness :
    fetch_guild_members c9doc =
      [⟨"a-1", "Alice", "owner", 0, "Unknown"⟩,
       ⟨"e-9", "Eve", "recruit", 3, "2021-01-01"⟩] ∧
    (⟨"a-1", "Alice", "owner", 0, "Unknown"⟩ : Member).rank ≠ "total" := by
  have h := C9_roster_loader c9doc
  exact ⟨h.1.trans (by decide), h.2 _ (by decide)⟩

/-- C3: the per-member loop yields exactly one row per member, in order
(1:1 correspondence), and whenever the profile fetch of a member raises,
the loop does not abort: the row of that member is the error placeholder
with current name `"Error"`, playtime `0`, the rank and in-guild name
preserved, and a delta string containing the error description. -/
theorem C3_one_row_per_member (now : Int) (pf : String → PyResult PlayerDoc)
    (members : List Member) :
    buildRows now pf members = members.map (rowFor now pf) ∧
    (buildRows now pf members).length = members.length ∧
    ∀ m e, fetch_player_info now pf m.uuid = .raised e →
      rowFor now pf m = errorRow m e ∧
      (rowFor now pf m).current_name = "Error" ∧
      (rowFor now pf m).playtime = 0 ∧
      (rowFor now pf m).rank = m.rank ∧
      (rowFor now pf m).guild_name = m.guild_name ∧
      (rowFor now pf m).delta_str = "Error: " ++ e := by
  refine ⟨buildRows_eq_map now pf members, ?_, ?_⟩
  · rw [buildRows_eq_map]
    simp
  · intro m e he
    have hr : rowFor now pf m = errorRow m e := by simp [rowFor, he]
    exact ⟨hr, by simp [hr, errorRow], by simp [hr, errorRow], by simp [hr, errorRow],
      by simp [hr, errorRow], by simp [hr, errorRow]⟩

/-- C3 witness: with an oracle that always raises `"boom"`, the single
the row of the single member is the error placeholder, with name and rank preserved. -/
theorem C3_one_row_per_member_witness :
    buildRows 0 c3pf [c3m] = [errorRow c3m "boom"] ∧
    (rowFor 0 c3pf c3m).current_name = "Error" ∧
    (rowFor 0 c3pf c3m).rank = c3m.rank ∧
    (rowFor 0 c3pf c3m).guild_name = c3m.guild_name := by
  have h := C3_one_row_per_member 0 c3pf [c3m]
  have h3 := h.2.2 c3m "boom" rfl
  exact ⟨h.1.trans (by decide), h3.2.1, h3.2.2.2.1, h3.2.2.2.2.1⟩

/-- C4: `safe_request` makes at most `MAX_RETRIES = 5` attempts for any
URL; a 429 response sleeps the fixed `RETRY_DELAY` cooldown and retries,
consuming exactly one of the bounded attempts (the loop step equation in
the third conjunct); when all 5 attempts fail (429, request exception, or
a status `raise_for_status` rejects) the call consumes all 5 attempts and
raises the exhaustion error carrying the URL. -/
theorem C4_bounded_retry (o : Nat → AttemptOutcome) (url : String) :
    (safe_request o url).attempts ≤ 5 ∧
    ((∀ a, 1 ≤ a → a ≤ 5 → attemptFails (o a) = true) →
      (safe_request o url).result =
        .raised ("Failed to fetch after 5 attempts: " ++ url) ∧
      (safe_request o url).attempts = 5) ∧
    (∀ a rest, o a = .status 429 →
      safe_request_aux o url (a :: rest) =
        ⟨(safe_request_aux o url rest).result,
          (safe_request_aux o url rest).attempts + 1,
          RETRY_DELAY :: (safe_request_aux o url rest).sleeps⟩) := by
  refine ⟨?_, ?_, ?_⟩
  · exact safe_request_aux_attempts_le o url (List.range' 1 MAX_RETRIES)
  · intro hall
    have hr : List.range' 1 MAX_RETRIES = [1, 2, 3, 4, 5] := rfl
    have h : ∀ a ∈ ([1, 2, 3, 4, 5] : List Nat), attemptFails (o a) = true := by
      intro a ha
      simp only [List.mem_cons, List.not_mem_nil, or_false] at ha
      rcases ha with rfl | rfl | rfl | rfl | rfl <;>
        exact hall _ (by norm_num) (by norm_num)
    have hres := safe_request_aux_all_fail o url [1, 2, 3, 4, 5] h
    have hs : ("Failed to fetch after " ++ toString MAX_RETRIES ++ " attempts: " : String) =
        "Failed to fetch after 5 attempts: " := by decide
    constructor
    · show (safe_request_aux o url (List.range' 1 MAX_RETRIES)).result = _
      rw [hr, hres, hs]
    · show (safe_request_aux o url (List.range' 1 MAX_RETRIES)).attempts = 5
      rw [hr, hres]
      rfl
  · intro a rest h
    simp [safe_request_aux, h]

/-- C4 witness: with every attempt rate-limited, the call stays within 5
attempts, raises the exhaustion error carrying the URL, and one 429 step
consumes one attempt and records one `RETRY_DELAY` sleep. -/
theorem C4_bounded_retry_witness :
    (safe_request c4o "u").attempts ≤ 5 ∧
    (safe_request c4o "u").result = .raised "Failed to fetch after 5 attempts: u" ∧
    safe_request_aux c4o "u" [1] =
      ⟨(safe_request_aux c4o "u" []).result, (safe_request_aux c4o "u" []).attempts + 1,
        RETRY_DELAY :: (safe_request_aux c4o "u" []).sleeps⟩ := by
  have h := C4_bounded_retry c4o "u"
  refine ⟨h.1, ?_, h.2.2 1 [] rfl⟩
  exact ((h.2.1 (fun a _ _ => rfl)).1).trans (by decide)

/-- C10 counterexample: a 304 response (not a success status) on the
first attempt is returned to the caller as-is, refuting the claim that a
returned response always has a 2xx status. -/
theorem C10_counterexample :
    (safe_request c10o "u").result = .ok 304 ∧ ¬ (200 ≤ 304 ∧ 304 < 300) := by
  exact ⟨by decide, by decide⟩

/-- C10 (amended): whenever `safe_request` returns normally, the returned
status is neither 429 nor any status `raise_for_status` rejects (the 4xx
and 5xx ranges); statuses outside `[400, 600)` — including 1xx/3xx — can
be returned. -/
theorem C10_no_error_status_returned (o : Nat → AttemptOutcome) (url : String)
    (c : Nat) (h : (safe_request o url).result = .ok c) :
    (c < 400 ∨ 600 ≤ c) ∧ c ≠ 429 := by
  have hc := safe_request_aux_ok o url (List.range' 1 MAX_RETRIES) c h
  refine ⟨?_, hc.2⟩
  have hb : ¬ (400 ≤ c ∧ c < 600) := by simpa [raisesForStatus] using hc.1
  omega

/-- C10 witness: a first-attempt 200 response is returned, and the
amended property holds of it. -/
theorem C10_no_error_status_returned_witness :
    ((200 : Nat) < 400 ∨ 600 ≤ 200) ∧ (200 : Nat) ≠ 429 :=
  C10_no_error_status_returned c10ok "u" 200 (by decide)

/-- C1 (source defect, flagged by the specification itself): the error
placeholder row omits `inactivity_seconds`, so the sort key
`x.get("inactivity_seconds", 0)` gives it `0` — the least-inactive key —
not the infinity sentinel; on a roster where the fetch of the first member fails
and whose second member has a finite 100-second inactivity, the sorted
report puts the error placeholder last, after the finite-inactivity row,
not near the top. -/
theorem C1_placeholder_sorts_last :
    pySortDesc sortKey (buildRows 100000000 c1pf [c1memA, c1memB]) =
      [mergeRow c1memB ⟨"Bobby", 0, "0d 0h 1m ago", some 0, ((100 : Int) : WithTop Int)⟩,
       errorRow c1memA "Failed to fetch after 5 attempts: u1"] ∧
    sortKey (errorRow c1memA "Failed to fetch after 5 attempts: u1") = (0 : WithTop Int) ∧
    ((0 : WithTop Int) ≠ ⊤) := by
  exact ⟨by decide, by decide, by decide⟩

/-- C2 counterexample: with the webhook URL environment variable unset,
the process exits with status 1 before any report is written (the
variable is required configuration), refuting the claim that the run
still writes the report and exits 0. -/
theorem C2_counterexample :
    runProgram ⟨some "GLD", none⟩ (.ok c2doc) c2pf 0 "t" = ⟨1, none, 0⟩ ∧
    (1 : Nat) ≠ 0 := by
  exact ⟨rfl, by decide⟩

/-- C2 (amended): when the webhook URL is set but empty (falsy), the run
writes the report file, attempts no upload, and exits with status 0. -/
theorem C2_empty_webhook_skips_upload (gp genTime : String) (gdoc : GuildDoc)
    (pf : String → PyResult PlayerDoc) (now : Int) :
    (runProgram ⟨some gp, some ""⟩ (.ok gdoc) pf now genTime).exitCode = 0 ∧
    (runProgram ⟨some gp, some ""⟩ (.ok gdoc) pf now genTime).reportFile =
      some (renderReport gp genTime
        (pySortDesc sortKey (buildRows now pf (fetch_guild_members gdoc)))) ∧
    (runProgram ⟨some gp, some ""⟩ (.ok gdoc) pf now genTime).webhookAttempts = 0 := by
  exact ⟨rfl, rfl, rfl⟩

/-- C5 counterexample: with a 21-character guild name the rendered line
keeps the whole name (no truncation to 20 characters): its first 21
characters are the name itself, and the character at index 21 is not the
`'|'` the claimed exactly-20-character column layout would place there. -/
theorem C5_counterexample :
    c5rowLong.guild_name.length = 21 ∧
    (renderRow c5rowLong).toList.take 21 = c5rowLong.guild_name.toList ∧
    (renderRow c5rowLong).toList.getD 21 '|' ≠ '|' := by
  exact ⟨by decide, by decide, by decide⟩

/-- C5 (amended): the name columns are left-aligned and space-padded on
the right to a minimum width of 20 characters (the rank to 10), and the
playtime column is right-aligned to a minimum width of 6 characters with
one decimal place and suffix `"h"`, followed by the unpadded delta
string; the columns are exactly 20/20/10/6 characters whenever their
content fits, but longer content is never truncated. -/
theorem C5_columns_min_width (r : ReportRow)
    (h1 : r.guild_name.length ≤ 20) (h2 : r.current_name.length ≤ 20)
    (h3 : r.rank.length ≤ 10) (h4 : (formatFix1 r.playtime).length ≤ 6) :
    ∃ c1 c2 c3 c4 : String,
      renderRow r =
        c1 ++ " | " ++ c2 ++ " | " ++ c3 ++ " | " ++ c4 ++ "h | " ++
          r.delta_str ++ "\n" ∧
      c1.length = 20 ∧ c2.length = 20 ∧ c3.length = 10 ∧ c4.length = 6 ∧
      c1 = r.guild_name ++ spaces (20 - r.guild_name.length) ∧
      c2 = r.current_name ++ spaces (20 - r.current_name.length) ∧
      c3 = r.rank ++ spaces (10 - r.rank.length) ∧
      c4 = spaces (6 - (formatFix1 r.playtime).length) ++ formatFix1 r.playtime := by
  refine ⟨padRightTo 20 r.guild_name, padRightTo 20 r.current_name,
    padRightTo 10 r.rank, padLeftTo 6 (formatFix1 r.playtime),
    rfl, ?_, ?_, ?_, ?_, rfl, rfl, rfl, rfl⟩
  · simp [padRightTo, spaces, String.length_append]
    omega
  · simp [padRightTo, spaces, String.length_append]
    omega
  · simp [padRightTo, spaces, String.length_append]
    omega
  · simp [padLeftTo, spaces, String.length_append]
    omega

/-- C5 witness: a row whose fields all fit renders into exact-width
columns. -/
theorem C5_columns_min_width_witness :
    ∃ c1 c2 c3 c4 : String,
      renderRow c5rowShort =
        c1 ++ " | " ++ c2 ++ " | " ++ c3 ++ " | " ++ c4 ++ "h | " ++
          c5rowShort.delta_str ++ "\n" ∧
      c1.length = 20 ∧ c2.length = 20 ∧ c3.length = 10 ∧ c4.length = 6 ∧
      c1 = c5rowShort.guild_name ++ spaces (20 - c5rowShort.guild_name.length) ∧
      c2 = c5rowShort.current_name ++ spaces (20 - c5rowShort.current_name.length) ∧
      c3 = c5rowShort.rank ++ spaces (10 - c5rowShort.rank.length) ∧
      c4 = spaces (6 - (formatFix1 c5rowShort.playtime).length) ++
        formatFix1 c5rowShort.playtime :=
  C5_columns_min_width c5rowShort (by decide) (by decide) (by decide) (by decide)

/-- C6 counterexample: an empty `lastJoin` string is present yet fails
ISO-8601 parsing, but the falsy test in the code sends it down the
"Never joined" branch rather than the "Invalid date" branch the claim
requires for present-but-unparsable timestamps. -/
theorem C6_counterexample :
    c6doc.lastJoin = some "" ∧
    fromisoformat (pyReplace "" "Z" "+00:00") = none ∧
    fetch_player_info 0 (fun _ => PyResult.ok c6doc) "x" =
      PyResult.ok ⟨"u6", 0, "Never joined", none, ⊤⟩ ∧
    "Never joined" ≠ "Invalid date" := by
  exact ⟨rfl, by decide, by decide, by decide⟩

/-- C6 (amended): an absent or empty `lastJoin` yields the
"Never joined" record with no last-login instant and the infinity
sentinel; a present, non-empty timestamp that fails to parse yields the
identical record except for the "Invalid date" delta string — both carry
the same infinity sentinel. -/
theorem C6_absent_or_unparsable_sentinel (now : Int) (uuid : String)
    (un : Option String) (pt : Option Rat) (lj : Option String) :
    ((lj = none ∨ lj = some "") →
      fetch_player_info now (fun _ => .ok ⟨un, pt, lj⟩) uuid =
        .ok ⟨un.getD uuid, pt.getD 0, "Never joined", none, ⊤⟩) ∧
    (∀ s, lj = some s → s ≠ "" → fromisoformat (pyReplace s "Z" "+00:00") = none →
      fetch_player_info now (fun _ => .ok ⟨un, pt, lj⟩) uuid =
        .ok ⟨un.getD uuid, pt.getD 0, "Invalid date", none, ⊤⟩) := by
  constructor
  · rintro (rfl | rfl)
    · rfl
    · rfl
  · rintro s rfl hs hparse
    simp [fetch_player_info, hs, hparse]

/-- C6 witness: a missing timestamp gives "Never joined", and the
unparsable string `"abc"` gives "Invalid date", both with the infinity
sentinel. -/
theorem C6_absent_or_unparsable_sentinel_witness :
    fetch_player_info 0 (fun _ => PyResult.ok ⟨some "u6", some 0, some "abc"⟩) "x" =
      PyResult.ok ⟨"u6", 0, "Invalid date", none, ⊤⟩ ∧
    fetch_player_info 0 (fun _ => PyResult.ok ⟨some "u6", some 0, none⟩) "x" =
      PyResult.ok ⟨"u6", 0, "Never joined", none, ⊤⟩ := by
  have h1 := (C6_absent_or_unparsable_sentinel 0 "x" (some "u6") (some 0)
    (some "abc")).2 "abc" rfl (by decide) (by decide)
  have h2 := (C6_absent_or_unparsable_sentinel 0 "x" (some "u6") (some 0)
    none).1 (Or.inl rfl)
  exact ⟨h1, h2⟩

/-- C7: when the timestamp parses to an aware instant, the recorded
inactivity equals the elapsed microseconds divided by 10^6 truncated
toward zero (not rounded), and the delta string is
`"{days}d {hours}h {minutes}m ago"` where days is the floored whole-day
count of the elapsed seconds and hours and minutes are the standard
decomposition of the remainder after whole days are removed, with
`hours ∈ [0, 24)` and `minutes ∈ [0, 60)`. -/
theorem C7_elapsed_decomposition (now : Int) (uuid : String)
    (un : Option String) (pt : Option Rat) (s : String) (dt : PyDateTime) (off : Int)
    (hs : s ≠ "") (hparse : fromisoformat (pyReplace s "Z" "+00:00") = some dt)
    (hoff : dt.offset = some off) :
    fetch_player_info now (fun _ => .ok ⟨un, pt, some s⟩) uuid =
      .ok ⟨un.getD uuid, pt.getD 0,
        toString (Int.fdiv (Int.fdiv (now - (dt.naiveMicro - off)) 1000000) 86400) ++ "d " ++
          toString (Int.fdiv (Int.emod (Int.fdiv (now - (dt.naiveMicro - off)) 1000000) 86400) 3600) ++ "h " ++
          toString (Int.fdiv (Int.emod (Int.emod (Int.fdiv (now - (dt.naiveMicro - off)) 1000000) 86400) 3600) 60) ++ "m ago",
        some (dt.naiveMicro - off),
        ((Int.tdiv (now - (dt.naiveMicro - off)) 1000000 : Int) : WithTop Int)⟩ ∧
    0 ≤ Int.fdiv (Int.emod (Int.fdiv (now - (dt.naiveMicro - off)) 1000000) 86400) 3600 ∧
    Int.fdiv (Int.emod (Int.fdiv (now - (dt.naiveMicro - off)) 1000000) 86400) 3600 < 24 ∧
    0 ≤ Int.fdiv (Int.emod (Int.emod (Int.fdiv (now - (dt.naiveMicro - off)) 1000000) 86400) 3600) 60 ∧
    Int.fdiv (Int.emod (Int.emod (Int.fdiv (now - (dt.naiveMicro - off)) 1000000) 86400) 3600) 60 < 60 := by
  constructor
  · simp only [fetch_player_info, hparse, hoff, if_neg hs]
    rw [← fdiv_micro_days]
  · have h1 : 0 ≤ Int.emod (Int.fdiv (now - (dt.naiveMicro - off)) 1000000) 86400 :=
      Int.emod_nonneg _ (by norm_num)
    have h2 : Int.emod (Int.fdiv (now - (dt.naiveMicro - off)) 1000000) 86400 < 86400 :=
      Int.emod_lt_of_pos _ (by norm_num)
    generalize Int.emod (Int.fdiv (now - (dt.naiveMicro - off)) 1000000) 86400 = e at h1 h2
    have h3 : 0 ≤ Int.emod e 3600 := Int.emod_nonneg _ (by norm_num)
    have h4 : Int.emod e 3600 < 3600 := Int.emod_lt_of_pos _ (by norm_num)
    generalize Int.emod e 3600 = e2 at h3 h4
    rw [Int.fdiv_eq_ediv _ (by norm_num : (0:Int) ≤ 3600),
      Int.fdiv_eq_ediv _ (by norm_num : (0:Int) ≤ 60)]
    omega

/-- C7 witness: last join 1970-01-02T03:04:05Z and a current instant
1 day, 1 hour, 1 minute, 1 second and half a second later give
inactivity 90061 seconds (truncated) and delta string "1d 1h 1m ago". -/
theorem C7_elapsed_decomposition_witness :
    fetch_player_info 187506500000
        (fun _ => PyResult.ok ⟨some "Bobby", some 0, some "1970-01-02T03:04:05Z"⟩) "u7" =
      PyResult.ok ⟨"Bobby", 0, "1d 1h 1m ago", some 97445000000,
        ((90061 : Int) : WithTop Int)⟩ := by
  have h := (C7_elapsed_decomposition 187506500000 "u7" (some "Bobby") (some 0)
    "1970-01-02T03:04:05Z" ⟨97445000000, some 0⟩ 0 (by decide) (by decide) rfl).1
  exact h.trans (by decide)
